import Mathlib

/-!
Verification of the rebel benchmark-execution engine against its design
specification.  The Python source under rebel/ is shallowly embedded:
pydantic models become structures, pure methods become functions, methods
that may raise become Except-valued functions, and injected collaborators
(the request transport and the abstract Metric.measure) become function
parameters.  Scores (Python floats used only through exact arithmetic,
min/max/mean/median) are modelled as rationals.
-/

namespace Rebel

/-! ## Data model (rebel/models/api.py) -/

/-- rebel/models/api.py RoleEnum. -/
inductive RoleEnum
| user
| assistant
| tool
| system
deriving DecidableEq, Repr

/-- rebel/models/api.py Function: a named function with serialized arguments. -/
structure Function where
  name : String
  arguments : String
deriving DecidableEq, Repr

/-- rebel/models/api.py ToolCall (the literal type tag is constant and omitted). -/
structure ToolCall where
  id : String := ""
  function : Function
deriving DecidableEq, Repr

/-- Opaque python value used for Any-typed api parameter entries. -/
inductive PyValue
| str (s : String)
| num (q : ℚ)
| boolean (b : Bool)
| null
deriving DecidableEq, Repr

/-- rebel/models/api.py Message. -/
structure Message where
  role : RoleEnum
  content : String
  tool_calls : Option (List ToolCall) := none
  tool_call_id : Option String := none
deriving DecidableEq, Repr

/-- rebel/models/api.py AssistantInput; the api_params dict is an ordered
association list, as python dicts preserve insertion order. -/
structure AssistantInput where
  messages : List Message := []
  api_params : List (String × PyValue) := []
deriving DecidableEq, Repr

/-- rebel/models/api.py AssistantOutput (optional fields carry their defaults). -/
structure AssistantOutput where
  output : Option String := some ""
  tools_called : List ToolCall := []
  context : List String := []
  execution_time : Option ℚ := none
deriving DecidableEq, Repr

/-! ## Data model (rebel/models/metric.py) -/

/-- rebel/models/metric.py EvaluationVerdict. -/
inductive EvaluationVerdict
| PASSED
| FAILED
| ERROR
deriving DecidableEq, Repr

/-- rebel/models/metric.py EvaluationResult. -/
structure EvaluationResult where
  score : ℚ
  verdict : EvaluationVerdict
  reason : String
deriving DecidableEq, Repr

/-- rebel/models/metric.py Metric is an abstract base class; its identity is
its get_name value, and its abstract measure method is modelled as an injected
capability where it is invoked (Evaluator.evaluate). -/
structure Metric where
  get_name : String
deriving DecidableEq, Repr

/-! ## Data model (rebel/models/test.py) -/

/-- rebel/models/test.py RetryAggregationStrategy. -/
inductive RetryAggregationStrategy
| MIN
| MAX
| MEAN
| MEDIAN
deriving DecidableEq, Repr

/-- rebel/models/test.py RetryParams: aggregation_strategy is Optional with
default RetryAggregationStrategy.MEAN. -/
structure RetryParams where
  count : Nat
  aggregation_strategy : Option RetryAggregationStrategy := some RetryAggregationStrategy.MEAN
deriving DecidableEq, Repr

/-- rebel/models/test.py ParameterGrid, generic in the Any-typed values. -/
structure ParameterGrid (α : Type u) where
  parameters : List (String × List α)

/-- rebel/models/test.py TestCase (TestInfo fields flattened in). -/
structure TestCase where
  name : String
  tags : List String
  retry_params : RetryParams
  input : AssistantInput
  expected_output : AssistantOutput
  metrics : List Metric
deriving DecidableEq, Repr

/-- rebel/models/test.py TestAttempt: a TestCase plus an attempt number. -/
structure TestAttempt where
  name : String
  tags : List String
  retry_params : RetryParams
  input : AssistantInput
  expected_output : AssistantOutput
  metrics : List Metric
  number : Nat
deriving DecidableEq, Repr

/-- rebel/models/test.py TestAttemptExecuted: a TestAttempt plus actual output. -/
structure TestAttemptExecuted where
  name : String
  tags : List String
  retry_params : RetryParams
  input : AssistantInput
  expected_output : AssistantOutput
  metrics : List Metric
  number : Nat
  actual_output : AssistantOutput
deriving DecidableEq, Repr

/-- rebel/models/evaluation.py EvaluationAttempt: an executed attempt bound to
one metric. -/
structure EvaluationAttempt where
  name : String
  tags : List String
  retry_params : RetryParams
  input : AssistantInput
  expected_output : AssistantOutput
  metrics : List Metric
  number : Nat
  actual_output : AssistantOutput
  metric : Metric
deriving DecidableEq, Repr

/-- rebel/models/evaluation.py EvaluationAttemptEvaluated: an EvaluationAttempt
plus its EvaluationResult. -/
structure EvaluationAttemptEvaluated where
  name : String
  tags : List String
  retry_params : RetryParams
  input : AssistantInput
  expected_output : AssistantOutput
  metrics : List Metric
  number : Nat
  actual_output : AssistantOutput
  metric : Metric
  evaluation_result : EvaluationResult
deriving DecidableEq, Repr

/-! ## Python exceptions -/

/-- The exceptions the embedded code can raise. -/
inductive PyExc
| typeError (msg : String)
| attributeError (msg : String)
| valueError (msg : String)
| unboundLocalError (msg : String)
| other (msg : String)
deriving DecidableEq, Repr

/-! ## Aggregator (rebel/aggregator/aggregator.py) -/

/-- Python min over a nonempty list (the source only calls it on nonempty
score lists); 0 on the empty list to stay total. -/
def pyMin : List ℚ → ℚ
| [] => 0
| x :: xs => xs.foldl min x

/-- Python max over a nonempty list; 0 on the empty list to stay total. -/
def pyMax : List ℚ → ℚ
| [] => 0
| x :: xs => xs.foldl max x

/-- statistics.mean: sum divided by length (exact in our rational model). -/
def pyMean (l : List ℚ) : ℚ := l.sum / l.length

/-- statistics.median: sort ascending; middle element for odd length, average
of the two middle elements for even length. -/
def pyMedian (l : List ℚ) : ℚ :=
  let s := List.insertionSort (· ≤ ·) l
  let n := s.length
  if n % 2 = 1 then s.getD (n / 2) 0
  else (s.getD (n / 2 - 1) 0 + s.getD (n / 2) 0) / 2

/-- aggregator.py lines 69-75: the evaluation results of the group members
whose verdict is not ERROR ("ignore insuccessful tests"). -/
def remainingResults (evaluations : List EvaluationAttemptEvaluated) : List EvaluationResult :=
  (evaluations.filter
    (fun evaluation => evaluation.evaluation_result.verdict != EvaluationVerdict.ERROR)).map
    (fun evaluation => evaluation.evaluation_result)

/-- aggregator.py lines 74-115: strategy dispatch over the ERROR-filtered
results.  A strategy of none matches no branch of the if/elif chain, so the
final return reads the unbound local score: UnboundLocalError. -/
def aggregateFiltered (aggregation_strategy : Option RetryAggregationStrategy)
    (evaluation_results : List EvaluationResult) : Except PyExc EvaluationResult :=
  let scores := evaluation_results.map (fun result => result.score)
  let verdicts := evaluation_results.map (fun result => result.verdict)
  if evaluation_results.isEmpty then
    .ok ⟨0, EvaluationVerdict.ERROR, "All evaluation attempts failed"⟩
  else
    match aggregation_strategy with
    | some RetryAggregationStrategy.MIN =>
        .ok ⟨pyMin scores,
             if EvaluationVerdict.FAILED ∈ verdicts
             then EvaluationVerdict.FAILED else EvaluationVerdict.PASSED, ""⟩
    | some RetryAggregationStrategy.MAX =>
        .ok ⟨pyMax scores,
             if EvaluationVerdict.PASSED ∈ verdicts
             then EvaluationVerdict.PASSED else EvaluationVerdict.FAILED, ""⟩
    | some RetryAggregationStrategy.MEAN =>
        let passed_count := verdicts.countP (fun v => v == EvaluationVerdict.PASSED)
        let failed_count := verdicts.length - passed_count
        .ok ⟨pyMean scores,
             if failed_count < passed_count
             then EvaluationVerdict.PASSED else EvaluationVerdict.FAILED, ""⟩
    | some RetryAggregationStrategy.MEDIAN =>
        let passed_count := verdicts.countP (fun v => v == EvaluationVerdict.PASSED)
        let failed_count := verdicts.length - passed_count
        .ok ⟨pyMedian scores,
             if failed_count < passed_count
             then EvaluationVerdict.PASSED else EvaluationVerdict.FAILED, ""⟩
    | none => .error (.unboundLocalError "score")

namespace Aggregator

/-- aggregator.py lines 62-115, Aggregator._aggregate_evaluation_result:
raises ValueError on an empty group, otherwise takes the strategy from the
first member, filters out ERROR members, and aggregates. -/
def _aggregate_evaluation_result (evaluations : List EvaluationAttemptEvaluated) :
    Except PyExc EvaluationResult :=
  match evaluations with
  | [] => .error (.valueError "[]")
  | e0 :: _ =>
      aggregateFiltered e0.retry_params.aggregation_strategy (remainingResults evaluations)

end Aggregator

/-! ## Helper lemmas on pyMin and pyMax -/

theorem foldl_min_mem (x : ℚ) (xs : List ℚ) : xs.foldl min x ∈ x :: xs := by
  induction xs generalizing x with
  | nil => simp
  | cons y ys ih =>
      have hfold : (y :: ys).foldl min x = ys.foldl min (min x y) := rfl
      rw [hfold]
      rcases List.mem_cons.mp (ih (min x y)) with h1 | h1
      · rw [h1]
        rcases le_total x y with hxy | hxy
        · rw [min_eq_left hxy]; exact List.mem_cons_self _ _
        · rw [min_eq_right hxy]
          exact List.mem_cons_of_mem _ (List.mem_cons_self _ _)
      · exact List.mem_cons_of_mem _ (List.mem_cons_of_mem _ h1)

theorem foldl_min_le (x : ℚ) (xs : List ℚ) : ∀ y ∈ x :: xs, xs.foldl min x ≤ y := by
  induction xs generalizing x with
  | nil =>
      intro y hy
      have hx : y = x := by simpa using hy
      subst hx; simp
  | cons z zs ih =>
      intro y hy
      have hfold : (z :: zs).foldl min x = zs.foldl min (min x z) := rfl
      rw [hfold]
      have hseed := ih (min x z) (min x z) (List.mem_cons_self _ _)
      rcases List.mem_cons.mp hy with h1 | h1
      · subst h1
        exact le_trans hseed (min_le_left _ _)
      · rcases List.mem_cons.mp h1 with h2 | h2
        · subst h2
          exact le_trans hseed (min_le_right _ _)
        · exact ih (min x z) y (List.mem_cons_of_mem _ h2)

theorem pyMin_mem (l : List ℚ) (h : l ≠ []) : pyMin l ∈ l := by
  cases l with
  | nil => exact absurd rfl h
  | cons x xs => exact foldl_min_mem x xs

theorem pyMin_le (l : List ℚ) (y : ℚ) (hy : y ∈ l) : pyMin l ≤ y := by
  cases l with
  | nil => simp at hy
  | cons x xs => exact foldl_min_le x xs y hy

theorem foldl_max_mem (x : ℚ) (xs : List ℚ) : xs.foldl max x ∈ x :: xs := by
  induction xs generalizing x with
  | nil => simp
  | cons y ys ih =>
      have hfold : (y :: ys).foldl max x = ys.foldl max (max x y) := rfl
      rw [hfold]
      rcases List.mem_cons.mp (ih (max x y)) with h1 | h1
      · rw [h1]
        rcases le_total x y with hxy | hxy
        · rw [max_eq_right hxy]
          exact List.mem_cons_of_mem _ (List.mem_cons_self _ _)
        · rw [max_eq_left hxy]; exact List.mem_cons_self _ _
      · exact List.mem_cons_of_mem _ (List.mem_cons_of_mem _ h1)

theorem le_foldl_max (x : ℚ) (xs : List ℚ) : ∀ y ∈ x :: xs, y ≤ xs.foldl max x := by
  induction xs generalizing x with
  | nil =>
      intro y hy
      have hx : y = x := by simpa using hy
      subst hx; simp
  | cons z zs ih =>
      intro y hy
      have hfold : (z :: zs).foldl max x = zs.foldl max (max x z) := rfl
      rw [hfold]
      have hseed := ih (max x z) (max x z) (List.mem_cons_self _ _)
      rcases List.mem_cons.mp hy with h1 | h1
      · subst h1
        exact le_trans (le_max_left _ _) hseed
      · rcases List.mem_cons.mp h1 with h2 | h2
        · subst h2
          exact le_trans (le_max_right _ _) hseed
        · exact ih (max x z) y (List.mem_cons_of_mem _ h2)

theorem pyMax_mem (l : List ℚ) (h : l ≠ []) : pyMax l ∈ l := by
  cases l with
  | nil => exact absurd rfl h
  | cons x xs => exact foldl_max_mem x xs

theorem le_pyMax (l : List ℚ) (y : ℚ) (hy : y ∈ l) : y ≤ pyMax l := by
  cases l with
  | nil => simp at hy
  | cons x xs => exact le_foldl_max x xs y hy

/-! ## Helper lemmas on verdict counting -/

theorem remainingResults_no_error (evaluations : List EvaluationAttemptEvaluated) :
    ∀ r ∈ remainingResults evaluations, r.verdict ≠ EvaluationVerdict.ERROR := by
  intro r hr
  simp only [remainingResults, List.mem_map, List.mem_filter] at hr
  obtain ⟨ev, ⟨_, hf⟩, hrr⟩ := hr
  subst hrr
  simpa using hf

theorem countP_failed_of_no_error (verdicts : List EvaluationVerdict)
    (h : ∀ v ∈ verdicts, v ≠ EvaluationVerdict.ERROR) :
    verdicts.length - verdicts.countP (fun v => v == EvaluationVerdict.PASSED)
      = verdicts.count EvaluationVerdict.FAILED := by
  induction verdicts with
  | nil => simp
  | cons v vs ih =>
      have hv := h v (List.mem_cons_self _ _)
      have hvs := ih (fun w hw => h w (List.mem_cons_of_mem _ hw))
      have hle : vs.countP (fun v => v == EvaluationVerdict.PASSED) ≤ vs.length :=
        List.countP_le_length _
      cases v with
      | PASSED =>
          have hcp : (EvaluationVerdict.PASSED :: vs).countP
                (fun v => v == EvaluationVerdict.PASSED)
              = vs.countP (fun v => v == EvaluationVerdict.PASSED) + 1 := by
            simp [List.countP_cons]
          have hcc : (EvaluationVerdict.PASSED :: vs).count EvaluationVerdict.FAILED
              = vs.count EvaluationVerdict.FAILED := by
            simp [List.count_cons]
          rw [hcp, hcc, List.length_cons]
          omega
      | FAILED =>
          have hcp : (EvaluationVerdict.FAILED :: vs).countP
                (fun v => v == EvaluationVerdict.PASSED)
              = vs.countP (fun v => v == EvaluationVerdict.PASSED) := by
            simp [List.countP_cons]
          have hcc : (EvaluationVerdict.FAILED :: vs).count EvaluationVerdict.FAILED
              = vs.count EvaluationVerdict.FAILED + 1 := by
            simp [List.count_cons]
          rw [hcp, hcc, List.length_cons]
          omega
      | ERROR => exact absurd rfl hv

theorem count_eq_countP_passed (verdicts : List EvaluationVerdict) :
    verdicts.count EvaluationVerdict.PASSED
      = verdicts.countP (fun v => v == EvaluationVerdict.PASSED) := by
  simp [List.count]

/-! ## Per-strategy evaluation lemmas for aggregateFiltered -/

theorem aggregateFiltered_min_spec (rr : List EvaluationResult) (h : rr ≠ []) :
    aggregateFiltered (some RetryAggregationStrategy.MIN) rr
      = Except.ok ⟨pyMin (rr.map (fun t => t.score)),
          if EvaluationVerdict.FAILED ∈ rr.map (fun t => t.verdict)
          then EvaluationVerdict.FAILED else EvaluationVerdict.PASSED, ""⟩ := by
  have hie : rr.isEmpty = false := List.isEmpty_eq_false.mpr h
  simp [aggregateFiltered, hie]

theorem aggregateFiltered_max_spec (rr : List EvaluationResult) (h : rr ≠ []) :
    aggregateFiltered (some RetryAggregationStrategy.MAX) rr
      = Except.ok ⟨pyMax (rr.map (fun t => t.score)),
          if EvaluationVerdict.PASSED ∈ rr.map (fun t => t.verdict)
          then EvaluationVerdict.PASSED else EvaluationVerdict.FAILED, ""⟩ := by
  have hie : rr.isEmpty = false := List.isEmpty_eq_false.mpr h
  simp [aggregateFiltered, hie]

/-- The majority-vote verdict the MEAN and MEDIAN branches compute, expressed
through value counts, is valid whenever no ERROR verdict remains. -/
theorem majority_verdict_eq (verdicts : List EvaluationVerdict)
    (hnoerr : ∀ v ∈ verdicts, v ≠ EvaluationVerdict.ERROR) :
    (if verdicts.length - verdicts.countP (fun v => v == EvaluationVerdict.PASSED)
          < verdicts.countP (fun v => v == EvaluationVerdict.PASSED)
     then EvaluationVerdict.PASSED else EvaluationVerdict.FAILED)
      = (if verdicts.count EvaluationVerdict.FAILED < verdicts.count EvaluationVerdict.PASSED
         then EvaluationVerdict.PASSED else EvaluationVerdict.FAILED) := by
  rw [countP_failed_of_no_error verdicts hnoerr, count_eq_countP_passed]

theorem aggregateFiltered_mean_spec (rr : List EvaluationResult) (h : rr ≠ [])
    (hnoerr : ∀ v ∈ rr.map (fun t => t.verdict), v ≠ EvaluationVerdict.ERROR) :
    aggregateFiltered (some RetryAggregationStrategy.MEAN) rr
      = Except.ok ⟨(rr.map (fun t => t.score)).sum / ((rr.map (fun t => t.score)).length : ℚ),
          if (rr.map (fun t => t.verdict)).count EvaluationVerdict.FAILED
              < (rr.map (fun t => t.verdict)).count EvaluationVerdict.PASSED
          then EvaluationVerdict.PASSED else EvaluationVerdict.FAILED, ""⟩ := by
  have hie : rr.isEmpty = false := List.isEmpty_eq_false.mpr h
  simp only [aggregateFiltered, hie, Bool.false_eq_true, if_false]
  rw [← majority_verdict_eq _ hnoerr]
  rfl

theorem aggregateFiltered_median_spec (rr : List EvaluationResult) (h : rr ≠ [])
    (hnoerr : ∀ v ∈ rr.map (fun t => t.verdict), v ≠ EvaluationVerdict.ERROR) :
    aggregateFiltered (some RetryAggregationStrategy.MEDIAN) rr
      = Except.ok ⟨pyMedian (rr.map (fun t => t.score)),
          if (rr.map (fun t => t.verdict)).count EvaluationVerdict.FAILED
              < (rr.map (fun t => t.verdict)).count EvaluationVerdict.PASSED
          then EvaluationVerdict.PASSED else EvaluationVerdict.FAILED, ""⟩ := by
  have hie : rr.isEmpty = false := List.isEmpty_eq_false.mpr h
  simp only [aggregateFiltered, hie, Bool.false_eq_true, if_false]
  rw [← majority_verdict_eq _ hnoerr]

theorem remainingResults_noerr_mapped (evaluations : List EvaluationAttemptEvaluated) :
    ∀ v ∈ (remainingResults evaluations).map (fun t => t.verdict),
      v ≠ EvaluationVerdict.ERROR := by
  intro v hv
  simp only [List.mem_map] at hv
  obtain ⟨t, ht, hvv⟩ := hv
  subst hvv
  exact remainingResults_no_error evaluations t ht

theorem remainingResults_append (l1 l2 : List EvaluationAttemptEvaluated) :
    remainingResults (l1 ++ l2) = remainingResults l1 ++ remainingResults l2 := by
  simp [remainingResults, List.filter_append]

theorem remainingResults_singleton_error (e : EvaluationAttemptEvaluated)
    (he : e.evaluation_result.verdict = EvaluationVerdict.ERROR) :
    remainingResults [e] = [] := by
  simp [remainingResults, List.filter, he]

theorem remainingResults_eq_nil (evaluations : List EvaluationAttemptEvaluated)
    (h : ∀ ev ∈ evaluations, ev.evaluation_result.verdict = EvaluationVerdict.ERROR) :
    remainingResults evaluations = [] := by
  have : evaluations.filter
      (fun evaluation => evaluation.evaluation_result.verdict != EvaluationVerdict.ERROR) = [] := by
    rw [List.filter_eq_nil_iff]
    intro a ha
    simp [h a ha]
  simp [remainingResults, this]

/-! ## Sample data for witnesses -/

/-- A concrete metric used by the witness groups. -/
def sampleMetric : Metric := ⟨"ToolCallsAccuracy"⟩

/-- A concrete evaluated attempt used by the witness groups. -/
def sampleEval (n : Nat) (strat : Option RetryAggregationStrategy) (score : ℚ)
    (v : EvaluationVerdict) : EvaluationAttemptEvaluated :=
  { name := "case", tags := [], retry_params := ⟨3, strat⟩, input := {},
    expected_output := {}, metrics := [sampleMetric], number := n, actual_output := {},
    metric := sampleMetric, evaluation_result := ⟨score, v, ""⟩ }

/-! ## Claims about the Aggregator -/

/-- C1: For a non-empty group of evaluated attempts that is not all ERROR, the
aggregated result over the ERROR-free members follows the retry-aggregation
strategy taken from the first member: MIN takes the minimum remaining score and
FAILED as soon as any remaining verdict is FAILED; MAX takes the maximum
remaining score and PASSED as soon as any remaining verdict is PASSED; MEAN
takes the arithmetic mean and MEDIAN the median of the remaining scores, both
with verdict PASSED iff strictly more remaining verdicts are PASSED than
FAILED; the aggregated reason is always the empty string. -/
theorem aggregator_strategy_table
    (evaluations : List EvaluationAttemptEvaluated)
    (e0 : EvaluationAttemptEvaluated) (rest : List EvaluationAttemptEvaluated)
    (hev : evaluations = e0 :: rest)
    (s : RetryAggregationStrategy)
    (hs : e0.retry_params.aggregation_strategy = some s)
    (hrem : remainingResults evaluations ≠ []) :
    ∃ r : EvaluationResult,
      Aggregator._aggregate_evaluation_result evaluations = Except.ok r ∧
      r.reason = "" ∧
      (s = RetryAggregationStrategy.MIN →
        (r.score ∈ (remainingResults evaluations).map (fun t => t.score) ∧
         ∀ x ∈ (remainingResults evaluations).map (fun t => t.score), r.score ≤ x) ∧
        r.verdict = (if EvaluationVerdict.FAILED ∈
              (remainingResults evaluations).map (fun t => t.verdict)
            then EvaluationVerdict.FAILED else EvaluationVerdict.PASSED)) ∧
      (s = RetryAggregationStrategy.MAX →
        (r.score ∈ (remainingResults evaluations).map (fun t => t.score) ∧
         ∀ x ∈ (remainingResults evaluations).map (fun t => t.score), x ≤ r.score) ∧
        r.verdict = (if EvaluationVerdict.PASSED ∈
              (remainingResults evaluations).map (fun t => t.verdict)
            then EvaluationVerdict.PASSED else EvaluationVerdict.FAILED)) ∧
      (s = RetryAggregationStrategy.MEAN →
        r.score = ((remainingResults evaluations).map (fun t => t.score)).sum
            / (((remainingResults evaluations).map (fun t => t.score)).length : ℚ) ∧
        r.verdict = (if ((remainingResults evaluations).map (fun t => t.verdict)).count
              EvaluationVerdict.FAILED
              < ((remainingResults evaluations).map (fun t => t.verdict)).count
              EvaluationVerdict.PASSED
            then EvaluationVerdict.PASSED else EvaluationVerdict.FAILED)) ∧
      (s = RetryAggregationStrategy.MEDIAN →
        r.score = pyMedian ((remainingResults evaluations).map (fun t => t.score)) ∧
        r.verdict = (if ((remainingResults evaluations).map (fun t => t.verdict)).count
              EvaluationVerdict.FAILED
              < ((remainingResults evaluations).map (fun t => t.verdict)).count
              EvaluationVerdict.PASSED
            then EvaluationVerdict.PASSED else EvaluationVerdict.FAILED)) := by
  subst hev
  have hagg : Aggregator._aggregate_evaluation_result (e0 :: rest)
      = aggregateFiltered e0.retry_params.aggregation_strategy
          (remainingResults (e0 :: rest)) := rfl
  have hnoerr := remainingResults_noerr_mapped (e0 :: rest)
  have hscores : (remainingResults (e0 :: rest)).map (fun t => t.score) ≠ [] := by
    intro hcon
    exact hrem (List.map_eq_nil_iff.mp hcon)
  cases s with
  | MIN =>
      refine ⟨_, by rw [hagg, hs, aggregateFiltered_min_spec _ hrem], rfl, ?_, ?_, ?_, ?_⟩
      · intro _
        exact ⟨⟨pyMin_mem _ hscores, fun x hx => pyMin_le _ x hx⟩, rfl⟩
      · intro hcon; cases hcon
      · intro hcon; cases hcon
      · intro hcon; cases hcon
  | MAX =>
      refine ⟨_, by rw [hagg, hs, aggregateFiltered_max_spec _ hrem], rfl, ?_, ?_, ?_, ?_⟩
      · intro hcon; cases hcon
      · intro _
        exact ⟨⟨pyMax_mem _ hscores, fun x hx => le_pyMax _ x hx⟩, rfl⟩
      · intro hcon; cases hcon
      · intro hcon; cases hcon
  | MEAN =>
      refine ⟨_, by rw [hagg, hs, aggregateFiltered_mean_spec _ hrem hnoerr], rfl,
        ?_, ?_, ?_, ?_⟩
      · intro hcon; cases hcon
      · intro hcon; cases hcon
      · intro _; exact ⟨rfl, rfl⟩
      · intro hcon; cases hcon
  | MEDIAN =>
      refine ⟨_, by rw [hagg, hs, aggregateFiltered_median_spec _ hrem hnoerr], rfl,
        ?_, ?_, ?_, ?_⟩
      · intro hcon; cases hcon
      · intro hcon; cases hcon
      · intro hcon; cases hcon
      · intro _; exact ⟨rfl, rfl⟩

/-- Witness for C1: the MIN example group from the specification, scores
0.9 / 0.4 / 0.9 with verdicts PASSED / FAILED / PASSED. -/
theorem aggregator_strategy_table_witness :
    ∃ r : EvaluationResult,
      Aggregator._aggregate_evaluation_result
        [sampleEval 0 (some RetryAggregationStrategy.MIN) (9/10) EvaluationVerdict.PASSED,
         sampleEval 1 (some RetryAggregationStrategy.MIN) (2/5) EvaluationVerdict.FAILED,
         sampleEval 2 (some RetryAggregationStrategy.MIN) (9/10) EvaluationVerdict.PASSED]
        = Except.ok r ∧ r.reason = "" := by
  obtain ⟨r, h1, h2, _⟩ := aggregator_strategy_table
    [sampleEval 0 (some RetryAggregationStrategy.MIN) (9/10) EvaluationVerdict.PASSED,
     sampleEval 1 (some RetryAggregationStrategy.MIN) (2/5) EvaluationVerdict.FAILED,
     sampleEval 2 (some RetryAggregationStrategy.MIN) (9/10) EvaluationVerdict.PASSED]
    (sampleEval 0 (some RetryAggregationStrategy.MIN) (9/10) EvaluationVerdict.PASSED)
    [sampleEval 1 (some RetryAggregationStrategy.MIN) (2/5) EvaluationVerdict.FAILED,
     sampleEval 2 (some RetryAggregationStrategy.MIN) (9/10) EvaluationVerdict.PASSED]
    rfl RetryAggregationStrategy.MIN rfl (by decide)
  exact ⟨r, h1, h2⟩

/-- C2: aggregation drops ERROR members before applying the strategy (appending
an ERROR member to a group that still has a non-ERROR member never changes the
aggregated result), and a non-empty group whose members are all ERROR
aggregates to score 0.0, verdict ERROR, reason "All evaluation attempts
failed", whatever the configured strategy is. -/
theorem aggregator_error_handling :
    (∀ (evaluations : List EvaluationAttemptEvaluated) (e : EvaluationAttemptEvaluated),
      evaluations ≠ [] →
      e.evaluation_result.verdict = EvaluationVerdict.ERROR →
      Aggregator._aggregate_evaluation_result (evaluations ++ [e])
        = Aggregator._aggregate_evaluation_result evaluations) ∧
    (∀ evaluations : List EvaluationAttemptEvaluated,
      evaluations ≠ [] →
      (∀ ev ∈ evaluations, ev.evaluation_result.verdict = EvaluationVerdict.ERROR) →
      Aggregator._aggregate_evaluation_result evaluations
        = Except.ok ⟨0, EvaluationVerdict.ERROR, "All evaluation attempts failed"⟩) := by
  constructor
  · intro evaluations e hne he
    cases evaluations with
    | nil => exact absurd rfl hne
    | cons e0 rest =>
        show aggregateFiltered e0.retry_params.aggregation_strategy
            (remainingResults ((e0 :: rest) ++ [e]))
          = aggregateFiltered e0.retry_params.aggregation_strategy
            (remainingResults (e0 :: rest))
        rw [remainingResults_append, remainingResults_singleton_error e he,
          List.append_nil]
  · intro evaluations hne hall
    cases evaluations with
    | nil => exact absurd rfl hne
    | cons e0 rest =>
        show aggregateFiltered e0.retry_params.aggregation_strategy
            (remainingResults (e0 :: rest))
          = Except.ok ⟨0, EvaluationVerdict.ERROR, "All evaluation attempts failed"⟩
        rw [remainingResults_eq_nil _ hall]
        rfl

/-- Witness for C2: three all-ERROR attempts aggregate to the fixed ERROR
result, and appending an ERROR attempt to a healthy MIN group changes
nothing. -/
theorem aggregator_error_handling_witness :
    Aggregator._aggregate_evaluation_result
      [sampleEval 0 (some RetryAggregationStrategy.MIN) 0 EvaluationVerdict.ERROR,
       sampleEval 1 (some RetryAggregationStrategy.MIN) 0 EvaluationVerdict.ERROR,
       sampleEval 2 (some RetryAggregationStrategy.MIN) 0 EvaluationVerdict.ERROR]
      = Except.ok ⟨0, EvaluationVerdict.ERROR, "All evaluation attempts failed"⟩ ∧
    Aggregator._aggregate_evaluation_result
      ([sampleEval 0 (some RetryAggregationStrategy.MIN) 1 EvaluationVerdict.PASSED]
        ++ [sampleEval 1 (some RetryAggregationStrategy.MIN) 0 EvaluationVerdict.ERROR])
      = Aggregator._aggregate_evaluation_result
        [sampleEval 0 (some RetryAggregationStrategy.MIN) 1 EvaluationVerdict.PASSED] :=
  ⟨aggregator_error_handling.2 _ (by decide) (by decide),
   aggregator_error_handling.1 _ _ (by decide) (by decide)⟩

/-- C10: retry parameters constructed without an explicit aggregation strategy
default to MEAN, and a group carrying such default parameters is aggregated
with the MEAN score (arithmetic mean of remaining scores) and the
majority-verdict rule. -/
theorem retry_params_default_mean
    (c : Nat)
    (evaluations : List EvaluationAttemptEvaluated)
    (e0 : EvaluationAttemptEvaluated) (rest : List EvaluationAttemptEvaluated)
    (hev : evaluations = e0 :: rest)
    (hrp : e0.retry_params = { count := c })
    (hrem : remainingResults evaluations ≠ []) :
    ({ count := c } : RetryParams).aggregation_strategy
        = some RetryAggregationStrategy.MEAN ∧
    ∃ r : EvaluationResult,
      Aggregator._aggregate_evaluation_result evaluations = Except.ok r ∧
      r.score = ((remainingResults evaluations).map (fun t => t.score)).sum
          / (((remainingResults evaluations).map (fun t => t.score)).length : ℚ) ∧
      r.verdict = (if ((remainingResults evaluations).map (fun t => t.verdict)).count
            EvaluationVerdict.FAILED
            < ((remainingResults evaluations).map (fun t => t.verdict)).count
            EvaluationVerdict.PASSED
          then EvaluationVerdict.PASSED else EvaluationVerdict.FAILED) ∧
      r.reason = "" := by
  subst hev
  refine ⟨rfl, ?_⟩
  have hagg : Aggregator._aggregate_evaluation_result (e0 :: rest)
      = aggregateFiltered e0.retry_params.aggregation_strategy
          (remainingResults (e0 :: rest)) := rfl
  have hs : e0.retry_params.aggregation_strategy = some RetryAggregationStrategy.MEAN := by
    rw [hrp]
  have hnoerr := remainingResults_noerr_mapped (e0 :: rest)
  exact ⟨_, by rw [hagg, hs, aggregateFiltered_mean_spec _ hrem hnoerr], rfl, rfl, rfl⟩

/-- Witness for C10: a two-attempt group whose retry parameters never named a
strategy is aggregated, and the default strategy is MEAN. -/
theorem retry_params_default_mean_witness :
    ({ count := 3 } : RetryParams).aggregation_strategy
        = some RetryAggregationStrategy.MEAN ∧
    ∃ r : EvaluationResult,
      Aggregator._aggregate_evaluation_result
        [sampleEval 0 (some RetryAggregationStrategy.MEAN) 1 EvaluationVerdict.PASSED,
         sampleEval 1 (some RetryAggregationStrategy.MEAN) 0 EvaluationVerdict.FAILED]
        = Except.ok r ∧
      r.reason = "" := by
  obtain ⟨hdef, r, h1, _, _, h4⟩ := retry_params_default_mean 3
    [sampleEval 0 (some RetryAggregationStrategy.MEAN) 1 EvaluationVerdict.PASSED,
     sampleEval 1 (some RetryAggregationStrategy.MEAN) 0 EvaluationVerdict.FAILED]
    (sampleEval 0 (some RetryAggregationStrategy.MEAN) 1 EvaluationVerdict.PASSED)
    [sampleEval 1 (some RetryAggregationStrategy.MEAN) 0 EvaluationVerdict.FAILED]
    rfl rfl (by decide)
  exact ⟨hdef, r, h1, h4⟩

/-! ## ToolCallsAccuracy metric (rebel/metrics/tool_calls_accuracy.py)

The measure method runs inside one try/except.  Three statements in it are
slips that raise at run time:
- the strict-mode mismatch branch and the except handler both build the
  result by calling the EvaluationVerdict enum class with keyword arguments
  (instead of EvaluationResult), which raises TypeError;
- the reason f-string of the success return reads self.score, a field that
  does not exist on the model, which raises AttributeError (it also reads
  t.name and t.input_parameters, which do not exist on ToolCall).
The embedding reproduces those raises with explicit PyExc errors. -/

/-- tool_calls_accuracy.py ExactMatchToolCallDistance.measure: 1.0 iff both
the function name and the serialized arguments are identical, else 0.0. -/
def ExactMatchToolCallDistance.measure (first_call second_call : ToolCall) : ℚ :=
  if first_call.function.name = second_call.function.name ∧
     first_call.function.arguments = second_call.function.arguments then 1 else 0

/-- The TypeError both buggy constructor calls raise: the EvaluationVerdict
enum class does not accept keyword arguments. -/
def enumCallTypeError : PyExc :=
  PyExc.typeError "EvaluationVerdict() got an unexpected keyword argument score"

/-- tool_calls_accuracy.py lines 172-178: the similarity matrix, one row per
expected call, built through the pluggable distance capability (which may
raise). -/
def computeSimilarities (distance : ToolCall → ToolCall → Except PyExc ℚ)
    (expected_tool_calls actual_tool_calls : List ToolCall) :
    Except PyExc (List (List ℚ)) :=
  expected_tool_calls.mapM (fun expected_tool =>
    actual_tool_calls.mapM (fun actual_tool => distance expected_tool actual_tool))

/-- tool_calls_accuracy.py lines 185-195: scan the row for the unused actual
index with the highest similarity, strictly above the running best that starts
at 0.0 (so ties keep the earliest index, and -1 i.e. none survives when no
unused candidate beats 0.0). -/
def bestUnused (row : List ℚ) (used_actual_indices : List Nat) : ℚ × Option Nat :=
  (List.range row.length).foldl
    (fun acc j =>
      if used_actual_indices.contains j then acc
      else
        let similarity := row.getD j 0
        if acc.1 < similarity then (similarity, some j) else acc)
    (0, none)

/-- tool_calls_accuracy.py lines 180-200: greedy matching, iterating expected
rows in order, accumulating each matched best similarity and marking the
matched actual index used. -/
def greedyTotal (similarities : List (List ℚ)) : ℚ :=
  (similarities.foldl
    (fun acc row =>
      let bu := bestUnused row acc.2
      match bu.2 with
      | some j => (acc.1 + bu.1, j :: acc.2)
      | none => acc)
    ((0 : ℚ), ([] : List Nat))).1

/-- tool_calls_accuracy.py ToolCallsAccuracy fields and their defaults; the
distance object is carried as its measure capability. -/
structure ToolCallsAccuracy where
  distance : ToolCall → ToolCall → Except PyExc ℚ := fun first_call second_call =>
    .ok (ExactMatchToolCallDistance.measure first_call second_call)
  threshold : ℚ := 1/2
  include_reason : Bool := true
  strict_mode : Bool := true

/-- tool_calls_accuracy.py lines 146-213, ToolCallsAccuracy.measure.
The body mirrors the source: empty/empty short-circuit; strict-mode length
mismatch (the redundant inner strict_mode test is implied by the outer
condition); similarity matrix through the distance capability; greedy
matching; then the final return raises AttributeError on self.score while
formatting the reason.  Any raise reaches the except handler, which itself
raises TypeError by calling the EvaluationVerdict enum class. -/
def ToolCallsAccuracy.measure (self : ToolCallsAccuracy) (input : AssistantInput)
    (expected actual : AssistantOutput) : Except PyExc EvaluationResult :=
  let body : Except PyExc EvaluationResult :=
    let expected_tool_calls := expected.tools_called
    let actual_tool_calls := actual.tools_called
    if expected_tool_calls.length = 0 ∧ actual_tool_calls.length = 0 then
      .ok ⟨1, EvaluationVerdict.PASSED, "No tools expected or called - perfect match"⟩
    else if expected_tool_calls.length ≠ actual_tool_calls.length ∧ self.strict_mode then
      .error enumCallTypeError
    else
      match computeSimilarities self.distance expected_tool_calls actual_tool_calls with
      | .error e => .error e
      | .ok similarities =>
          let total_simiarity := greedyTotal similarities
          let score := total_simiarity
              / (max expected_tool_calls.length actual_tool_calls.length : ℚ)
          .error (PyExc.attributeError "ToolCallsAccuracy object has no attribute score")
  match body with
  | .ok r => .ok r
  | .error _ => .error enumCallTypeError

/-- A tool call named f with empty serialized arguments. -/
def callF : ToolCall := { function := { name := "f", arguments := "\x7b\x7d" } }

/-- A second, distinct tool call named f2. -/
def callF2 : ToolCall := { function := { name := "f2", arguments := "\x7b\x7d" } }

/-- A tool call named g, not matching callF under exact-match distance. -/
def callG : ToolCall := { function := { name := "g", arguments := "\x7b\x7d" } }

/-- An assistant output carrying the given tool calls. -/
def outWith (calls : List ToolCall) : AssistantOutput := { tools_called := calls }

/-! ## Claims about ToolCallsAccuracy -/

/-- C3 (code bug): the empty/empty branch does return score 1.0 PASSED, but on
the specification's own exact-match example, expected = actual = one call with
identical name and arguments, measure does not return score 1.0: the final
return statement reads self.score (a nonexistent attribute) while formatting
the reason, and the except handler then raises TypeError by calling the
EvaluationVerdict enum class, so the call raises instead of returning. -/
theorem toolcalls_measure_crashes_on_match :
    (ToolCallsAccuracy.measure {} {} {} {}
        = Except.ok ⟨1, EvaluationVerdict.PASSED,
            "No tools expected or called - perfect match"⟩) ∧
    (ToolCallsAccuracy.measure {} {} (outWith [callF]) (outWith [callF])
        = Except.error enumCallTypeError) :=
  ⟨rfl, rfl⟩

/-- C4 (code bug): in strict mode with different non-zero list lengths the
mismatch branch runs before any similarity is computed (a distance capability
that would raise is never consulted), but instead of returning score 0.0
FAILED it calls the EvaluationVerdict enum class with keyword arguments,
raising TypeError, which the except handler turns into another TypeError. -/
theorem toolcalls_strict_mismatch_raises :
    (ToolCallsAccuracy.measure {} {} (outWith [callF, callF2]) (outWith [callF])
        = Except.error enumCallTypeError) ∧
    (ToolCallsAccuracy.measure
        { distance := fun _ _ => Except.error (PyExc.other "distance must not be called") }
        {} (outWith [callF, callF2]) (outWith [callF])
      = ToolCallsAccuracy.measure {} {} (outWith [callF, callF2]) (outWith [callF])) :=
  ⟨rfl, rfl⟩

/-- C5 (code bug): an exception raised inside the distance function is caught
by the except handler, but the handler itself calls the EvaluationVerdict enum
class with keyword arguments and so raises TypeError: measure propagates an
exception instead of returning a score 0.0 ERROR result. -/
theorem toolcalls_exception_not_caught :
    ToolCallsAccuracy.measure
        { distance := fun _ _ => Except.error (PyExc.other "boom") }
        {} (outWith [callF]) (outWith [callG])
      = Except.error enumCallTypeError :=
  rfl

/-! ## Parameter grid expansion (rebel/models/test.py ParameterGrid.expand) -/

/-- itertools.product over a list of option lists: the first list varies
slowest, the last varies fastest; the product of zero lists is one empty
tuple. -/
def itertoolsProduct {α : Type u} : List (List α) → List (List α)
| [] => [[]]
| l :: ls => l.flatMap (fun x => (itertoolsProduct ls).map (fun combo => x :: combo))

/-- test.py lines 41-53, ParameterGrid.expand: zip the key list with every
tuple of the cartesian product of the value lists (dict(zip(keys, combo)) is
an association list whose keys are the distinct grid keys in order). -/
def ParameterGrid.expand {α : Type u} (g : ParameterGrid α) : List (List (String × α)) :=
  let keys := g.parameters.map Prod.fst
  let values := g.parameters.map Prod.snd
  (itertoolsProduct values).map (fun combo => keys.zip combo)

theorem length_itertoolsProduct {α : Type u} (ls : List (List α)) :
    (itertoolsProduct ls).length = (ls.map List.length).prod := by
  induction ls with
  | nil => rfl
  | cons l ls ih =>
      simp only [itertoolsProduct, List.length_flatMap, List.map_map]
      have hconst : ∀ x ∈ l,
          (List.length ∘ fun x => (itertoolsProduct ls).map (fun combo => x :: combo)) x
            = (ls.map List.length).prod := by
        intro x _
        simp [ih]
      rw [List.map_congr_left hconst, List.map_const', List.sum_replicate, smul_eq_mul,
        List.map_cons, List.prod_cons]

theorem mem_itertoolsProduct_length {α : Type u} (ls : List (List α)) (c : List α)
    (hc : c ∈ itertoolsProduct ls) : c.length = ls.length := by
  induction ls generalizing c with
  | nil =>
      simp only [itertoolsProduct, List.mem_singleton] at hc
      subst hc; rfl
  | cons l ls ih =>
      simp only [itertoolsProduct, List.mem_flatMap, List.mem_map] at hc
      obtain ⟨x, _, combo, hcombo, rfl⟩ := hc
      simp [ih combo hcombo]

/-- Indexing a flatMap whose chunks all have the same positive length M:
element i sits in chunk i / M at offset i % M. -/
theorem getElem?_flatMap_const {α : Type u} {β : Type v} (f : α → List β) (M : Nat)
    (hM : ∀ a, (f a).length = M) (hMpos : 0 < M) (l : List α) (i : Nat) :
    (l.flatMap f)[i]? = (l[i / M]?).bind fun a => (f a)[i % M]? := by
  induction l generalizing i with
  | nil => simp
  | cons a l ih =>
      rw [List.flatMap_cons, List.getElem?_append, hM a]
      by_cases hi : i < M
      · rw [if_pos hi, Nat.div_eq_of_lt hi, Nat.mod_eq_of_lt hi,
          List.getElem?_cons_zero]
        rfl
      · rw [if_neg hi]
        push_neg at hi
        obtain ⟨j, rfl⟩ := Nat.exists_eq_add_of_le hi
        have hdiv : (M + j) / M = j / M + 1 := by
          rw [Nat.add_comm, Nat.add_div_right _ hMpos]
        have hmod : (M + j) % M = j % M := Nat.add_mod_left M j
        rw [Nat.add_sub_cancel_left, ih j, hdiv, hmod, List.getElem?_cons_succ]

/-- Indexing the cartesian product of a cons: with M the size of the tail
product, element i picks head option i / M and tail tuple i % M, so the head
(first key) varies slowest. -/
theorem getElem?_itertoolsProduct_cons {α : Type u} (l : List α) (ls : List (List α))
    (i : Nat) :
    (itertoolsProduct (l :: ls))[i]?
      = (l[i / (ls.map List.length).prod]?).bind fun x =>
          ((itertoolsProduct ls)[i % (ls.map List.length).prod]?).map
            (fun combo => x :: combo) := by
  by_cases hMpos : 0 < (ls.map List.length).prod
  · have hlen : ∀ x : α,
        ((itertoolsProduct ls).map (fun combo => x :: combo)).length
          = (ls.map List.length).prod := by
      intro x
      simp [length_itertoolsProduct]
    rw [show itertoolsProduct (l :: ls)
        = l.flatMap (fun x => (itertoolsProduct ls).map (fun combo => x :: combo)) from rfl]
    rw [getElem?_flatMap_const _ _ hlen hMpos l i]
    simp only [List.getElem?_map]
  · have hM0 : (ls.map List.length).prod = 0 := Nat.eq_zero_of_not_pos hMpos
    have hprod : itertoolsProduct ls = [] := by
      rw [← List.length_eq_zero, length_itertoolsProduct, hM0]
    rw [show itertoolsProduct (l :: ls)
        = l.flatMap (fun x => (itertoolsProduct ls).map (fun combo => x :: combo)) from rfl]
    rw [hprod]
    have hflat : l.flatMap (fun x => ([] : List (List α)).map (fun combo => x :: combo))
        = [] := by simp
    rw [hflat]
    simp

/-- C6: expand() returns exactly the product of the value-list lengths many
combinations (one empty combination for a zero-key grid), each combination
carries exactly the grid's keys in grid order, the sequence is ordered as the
cartesian product with the first key varying slowest (element i binds the
first key to value i / M, with M the product of the remaining lengths, and
continues recursively at index i % M), and the function is pure, so repeated
calls return an identical sequence. -/
theorem parameter_grid_expand_spec {α : Type} (g : ParameterGrid α) :
    (g.expand.length = (g.parameters.map (fun kv => kv.2.length)).prod) ∧
    (∀ m ∈ g.expand, m.map Prod.fst = g.parameters.map Prod.fst) ∧
    (∀ (k : String) (v : List α) (ps : List (String × List α)),
      g.parameters = (k, v) :: ps →
      ∀ i : Nat,
        g.expand[i]?
          = (v[i / (ps.map (fun kv => kv.2.length)).prod]?).bind fun x =>
              ((ParameterGrid.mk ps).expand[i % (ps.map (fun kv => kv.2.length)).prod]?).map
                (fun m => (k, x) :: m)) ∧
    g.expand = g.expand := by
  refine ⟨?_, ?_, ?_, rfl⟩
  · simp only [ParameterGrid.expand, List.length_map, length_itertoolsProduct,
      List.map_map]
    rfl
  · intro m hm
    simp only [ParameterGrid.expand, List.mem_map] at hm
    obtain ⟨combo, hcombo, rfl⟩ := hm
    have hlen : combo.length = (g.parameters.map Prod.snd).length :=
      mem_itertoolsProduct_length _ combo hcombo
    refine List.map_fst_zip _ _ ?_
    rw [hlen]
    simp
  · intro k v ps hp i
    obtain ⟨params⟩ := g
    simp only at hp
    subst hp
    simp only [ParameterGrid.expand, List.map_cons, List.getElem?_map,
      getElem?_itertoolsProduct_cons, List.map_map]
    have hM : (ps.map (List.length ∘ Prod.snd)).prod
        = (ps.map (fun kv => kv.2.length)).prod := rfl
    rw [hM]
    simp only [Option.map_bind]
    congr 1
    funext x
    simp only [Function.comp, Option.map_map]
    rfl

/-- Witness for C6: a two-key grid over the naturals with 2 x 3 values has 6
combinations, and combination 4 binds a to its third value and b to its second
value, first key varying slowest. -/
theorem parameter_grid_expand_spec_witness :
    (ParameterGrid.mk [("a", [1, 2]), ("b", [10, 20, 30])] : ParameterGrid ℕ).expand.length
        = 6 ∧
    (ParameterGrid.mk [("a", [1, 2]), ("b", [10, 20, 30])] : ParameterGrid ℕ).expand[4]?
        = some [("a", 2), ("b", 20)] := by
  constructor
  · exact (parameter_grid_expand_spec
      (ParameterGrid.mk [("a", [1, 2]), ("b", [10, 20, 30])])).1.trans (by decide)
  · have h := (parameter_grid_expand_spec
      (ParameterGrid.mk [("a", [1, 2]), ("b", [10, 20, 30])])).2.2.1
      "a" [1, 2] [("b", [10, 20, 30])] rfl 4
    rw [h]
    decide

/-! ## Extractor (rebel/extractor/extractor.py) -/

namespace Extractor

/-- extractor.py lines 125-140, Extractor.unfold_test_cases: for each case,
one attempt per number in range(0, retry_params.count), copying every field of
the case (the model_dump/model_validate round trip is a field copy). -/
def unfold_test_cases (test_cases : List TestCase) : List TestAttempt :=
  test_cases.flatMap fun test_case =>
    (List.range test_case.retry_params.count).map fun attempt_number =>
      { name := test_case.name, tags := test_case.tags,
        retry_params := test_case.retry_params, input := test_case.input,
        expected_output := test_case.expected_output, metrics := test_case.metrics,
        number := attempt_number }

end Extractor

/-- C7: a case with retry count r yields exactly r attempts, numbered 0..r-1
contiguously in ascending order (their number list is range r), each
preserving every field of the case; a case with retry count 0 yields no
attempts; and unfolding distributes over concatenation, so each case
contributes exactly its own block. -/
theorem extractor_unfold_cases_spec :
    (∀ test_case : TestCase,
      (Extractor.unfold_test_cases [test_case]).length = test_case.retry_params.count ∧
      (Extractor.unfold_test_cases [test_case]).map (fun a => a.number)
          = List.range test_case.retry_params.count ∧
      (∀ a ∈ Extractor.unfold_test_cases [test_case],
        a.name = test_case.name ∧ a.tags = test_case.tags ∧
        a.retry_params = test_case.retry_params ∧ a.input = test_case.input ∧
        a.expected_output = test_case.expected_output ∧ a.metrics = test_case.metrics) ∧
      (test_case.retry_params.count = 0 →
        Extractor.unfold_test_cases [test_case] = [])) ∧
    (∀ cs ds : List TestCase,
      Extractor.unfold_test_cases (cs ++ ds)
        = Extractor.unfold_test_cases cs ++ Extractor.unfold_test_cases ds) := by
  constructor
  · intro test_case
    have h0 : Extractor.unfold_test_cases [test_case]
        = (List.range test_case.retry_params.count).map fun attempt_number =>
            { name := test_case.name, tags := test_case.tags,
              retry_params := test_case.retry_params, input := test_case.input,
              expected_output := test_case.expected_output, metrics := test_case.metrics,
              number := attempt_number } := by
      simp [Extractor.unfold_test_cases]
    refine ⟨?_, ?_, ?_, ?_⟩
    · rw [h0]; simp
    · rw [h0, List.map_map]
      have : ∀ n ∈ List.range test_case.retry_params.count,
          ((fun a => TestAttempt.number a) ∘ fun attempt_number =>
            ({ name := test_case.name, tags := test_case.tags,
               retry_params := test_case.retry_params, input := test_case.input,
               expected_output := test_case.expected_output,
               metrics := test_case.metrics,
               number := attempt_number } : TestAttempt)) n = id n := by
        intro n _; rfl
      rw [List.map_congr_left this, List.map_id]
    · intro a ha
      rw [h0] at ha
      simp only [List.mem_map] at ha
      obtain ⟨n, _, rfl⟩ := ha
      exact ⟨rfl, rfl, rfl, rfl, rfl, rfl⟩
    · intro hc
      rw [h0, hc]
      rfl
  · intro cs ds
    exact List.flatMap_append cs ds _

/-- A concrete test case used by the C7 witness. -/
def sampleCase (cnt : Nat) : TestCase :=
  { name := "case", tags := [], retry_params := ⟨cnt, some RetryAggregationStrategy.MEAN⟩,
    input := {}, expected_output := {}, metrics := [sampleMetric] }

/-- Witness for C7: a case with retry count 3 yields attempts numbered
0, 1, 2, and a case with retry count 0 yields none. -/
theorem extractor_unfold_cases_spec_witness :
    (Extractor.unfold_test_cases [sampleCase 3]).map (fun a => a.number) = [0, 1, 2] ∧
    Extractor.unfold_test_cases [sampleCase 0] = [] := by
  refine ⟨?_, (extractor_unfold_cases_spec.1 (sampleCase 0)).2.2.2 rfl⟩
  rw [(extractor_unfold_cases_spec.1 (sampleCase 3)).2.1]
  rfl

/-! ## Collector (rebel/collector/collector.py) -/

/-- The executed attempt built from a successful attempt: every field of the
attempt plus the assistant output (model_dump/model_validate round trip). -/
def executedFrom (test_attempt : TestAttempt) (actual_output : AssistantOutput) :
    TestAttemptExecuted :=
  { name := test_attempt.name, tags := test_attempt.tags,
    retry_params := test_attempt.retry_params, input := test_attempt.input,
    expected_output := test_attempt.expected_output, metrics := test_attempt.metrics,
    number := test_attempt.number, actual_output := actual_output }

/-- Projection back onto the attempt fields. -/
def attemptOf (ea : TestAttemptExecuted) : TestAttempt :=
  { name := ea.name, tags := ea.tags, retry_params := ea.retry_params,
    input := ea.input, expected_output := ea.expected_output, metrics := ea.metrics,
    number := ea.number }

/-- Whether the request capability raises on this attempt's input. -/
def requestFails (request : AssistantInput → Except String AssistantOutput)
    (test_attempt : TestAttempt) : Bool :=
  match request test_attempt.input with
  | .ok _ => false
  | .error _ => true

namespace Collector

/-- collector.py lines 20-40: the per-attempt worker returns the executed
attempt on success and None when the request capability raises. -/
def worker (request : AssistantInput → Except String AssistantOutput)
    (test_attempt : TestAttempt) : Option TestAttemptExecuted :=
  match request test_attempt.input with
  | .ok test_attempt_result => some (executedFrom test_attempt test_attempt_result)
  | .error _ => none

/-- collector.py lines 16-56, Collector.collect_test_results: map the worker
over all attempts (the worker pool returns results positionally), then remove
the None entries of failed attempts. -/
def collect_test_results (test_attempts : List TestAttempt)
    (request : AssistantInput → Except String AssistantOutput) :
    List TestAttemptExecuted :=
  (test_attempts.map (worker request)).filterMap id

end Collector

theorem attemptOf_executedFrom (ta : TestAttempt) (out : AssistantOutput) :
    attemptOf (executedFrom ta out) = ta := rfl

theorem collect_eq_filterMap (test_attempts : List TestAttempt)
    (request : AssistantInput → Except String AssistantOutput) :
    Collector.collect_test_results test_attempts request
      = test_attempts.filterMap (Collector.worker request) := by
  rw [Collector.collect_test_results, List.filterMap_map]
  rfl

theorem length_filterMap_add {α : Type u} {β : Type v} (w : α → Option β) (l : List α) :
    (l.filterMap w).length + (l.filter (fun a => (w a).isNone)).length = l.length := by
  induction l with
  | nil => rfl
  | cons a l ih =>
      cases hw : w a with
      | none =>
          have h1 : (a :: l).filterMap w = l.filterMap w := by
            simp [List.filterMap_cons, hw]
          have h2 : (a :: l).filter (fun a => (w a).isNone)
              = a :: l.filter (fun a => (w a).isNone) := by
            simp [List.filter_cons, hw]
          rw [h1, h2, List.length_cons, List.length_cons]
          omega
      | some b =>
          have h1 : (a :: l).filterMap w = b :: l.filterMap w := by
            simp [List.filterMap_cons, hw]
          have h2 : (a :: l).filter (fun a => (w a).isNone)
              = l.filter (fun a => (w a).isNone) := by
            simp [List.filter_cons, hw]
          rw [h1, h2, List.length_cons, List.length_cons]
          omega

/-- C8: of n attempts of which k make the request capability raise, collection
returns exactly n - k executed attempts; every output element stems from a
successful attempt and preserves all its fields plus the output; every
successful attempt contributes its executed attempt to the output; failed
attempts are dropped (they satisfy requestFails and are counted in k); and
distinct attempts yield distinct executed attempts, so each successful attempt
appears exactly once. -/
theorem collector_drops_failures
    (test_attempts : List TestAttempt)
    (request : AssistantInput → Except String AssistantOutput) :
    ((Collector.collect_test_results test_attempts request).length
        = test_attempts.length
          - (test_attempts.filter (requestFails request)).length) ∧
    (∀ ea ∈ Collector.collect_test_results test_attempts request,
      ∃ ta ∈ test_attempts,
        request ta.input = Except.ok ea.actual_output ∧
        ea = executedFrom ta ea.actual_output) ∧
    (∀ ta ∈ test_attempts, ∀ out : AssistantOutput,
      request ta.input = Except.ok out →
      executedFrom ta out ∈ Collector.collect_test_results test_attempts request) ∧
    (test_attempts.Nodup → (Collector.collect_test_results test_attempts request).Nodup) := by
  rw [collect_eq_filterMap]
  have hfail : test_attempts.filter (requestFails request)
      = test_attempts.filter (fun a => (Collector.worker request a).isNone) := by
    apply List.filter_congr
    intro a _
    cases hr : request a.input <;>
      simp [requestFails, Collector.worker, hr]
  refine ⟨?_, ?_, ?_, ?_⟩
  · rw [hfail]
    have := length_filterMap_add (Collector.worker request) test_attempts
    omega
  · intro ea hea
    rw [List.mem_filterMap] at hea
    obtain ⟨ta, hta, hw⟩ := hea
    refine ⟨ta, hta, ?_⟩
    rw [Collector.worker] at hw
    cases hr : request ta.input with
    | ok out =>
        rw [hr] at hw
        simp only [Option.some_inj] at hw
        subst hw
        exact ⟨rfl, rfl⟩
    | error e => rw [hr] at hw; cases hw
  · intro ta hta out hout
    rw [List.mem_filterMap]
    exact ⟨ta, hta, by simp [Collector.worker, hout]⟩
  · intro hnd
    refine List.Nodup.filterMap ?_ hnd
    intro a a' b hb hb'
    have ha : attemptOf b = a := by
      rw [Collector.worker] at hb
      cases hr : request a.input with
      | ok out =>
          rw [hr] at hb
          simp only [Option.mem_def, Option.some_inj] at hb
          rw [← hb]
          rfl
      | error e => rw [hr] at hb; cases hb
    have ha' : attemptOf b = a' := by
      rw [Collector.worker] at hb'
      cases hr : request a'.input with
      | ok out =>
          rw [hr] at hb'
          simp only [Option.mem_def, Option.some_inj] at hb'
          rw [← hb']
          rfl
      | error e => rw [hr] at hb'; cases hb'
    rw [← ha, ha']

/-- A concrete attempt whose input carries a distinguishing api parameter. -/
def attemptN (s : String) (n : Nat) : TestAttempt :=
  { name := "case", tags := [], retry_params := ⟨1, some RetryAggregationStrategy.MEAN⟩,
    input := { messages := [], api_params := [("n", PyValue.str s)] },
    expected_output := {}, metrics := [sampleMetric], number := n }

/-- A request capability that raises exactly on the attempt tagged "2". -/
def reqDown (inp : AssistantInput) : Except String AssistantOutput :=
  if inp.api_params = [("n", PyValue.str "2")] then Except.error "down"
  else Except.ok {}

/-- Witness for C8: of 5 attempts where the request raises on one, exactly 4
executed attempts come back, and a successful attempt's executed form is in
the output. -/
theorem collector_drops_failures_witness :
    (Collector.collect_test_results
        [attemptN "0" 0, attemptN "1" 1, attemptN "2" 2, attemptN "3" 3, attemptN "4" 4]
        reqDown).length = 4 ∧
    executedFrom (attemptN "0" 0) {} ∈ Collector.collect_test_results
        [attemptN "0" 0, attemptN "1" 1, attemptN "2" 2, attemptN "3" 3, attemptN "4" 4]
        reqDown := by
  constructor
  · exact (collector_drops_failures
      [attemptN "0" 0, attemptN "1" 1, attemptN "2" 2, attemptN "3" 3, attemptN "4" 4]
      reqDown).1.trans (by decide)
  · exact (collector_drops_failures
      [attemptN "0" 0, attemptN "1" 1, attemptN "2" 2, attemptN "3" 3, attemptN "4" 4]
      reqDown).2.2.1 (attemptN "0" 0) (by decide) {} rfl

/-! ## Evaluator (rebel/evaluator/evaluator.py) -/

/-- The abstract Metric.measure capability: scoring a metric against an input,
expected output and actual output may raise (modelled as Except). -/
abbrev MeasureCap :=
  Metric → AssistantInput → AssistantOutput → AssistantOutput →
    Except String EvaluationResult

namespace Evaluator

/-- evaluator.py lines 20-35, Evaluator.unfold_test_attempts: one evaluation
attempt per (executed attempt, metric) pair, copying every field. -/
def unfold_test_attempts (test_attempt_executed : List TestAttemptExecuted) :
    List EvaluationAttempt :=
  test_attempt_executed.flatMap fun test_attempt =>
    test_attempt.metrics.map fun metric =>
      { name := test_attempt.name, tags := test_attempt.tags,
        retry_params := test_attempt.retry_params, input := test_attempt.input,
        expected_output := test_attempt.expected_output,
        metrics := test_attempt.metrics, number := test_attempt.number,
        actual_output := test_attempt.actual_output, metric := metric }

/-- evaluator.py lines 47-77, the per-pair worker: invoke measure, catch any
exception into a score 0.0 ERROR result with the message as reason, and attach
the result to the pair's fields. -/
def evaluate_single_attempt (measure : MeasureCap)
    (evaluation_attempt : EvaluationAttempt) : EvaluationAttemptEvaluated :=
  let result :=
    match measure evaluation_attempt.metric evaluation_attempt.input
        evaluation_attempt.expected_output evaluation_attempt.actual_output with
    | .ok r => r
    | .error e => ⟨0, EvaluationVerdict.ERROR, e⟩
  { name := evaluation_attempt.name, tags := evaluation_attempt.tags,
    retry_params := evaluation_attempt.retry_params,
    input := evaluation_attempt.input,
    expected_output := evaluation_attempt.expected_output,
    metrics := evaluation_attempt.metrics, number := evaluation_attempt.number,
    actual_output := evaluation_attempt.actual_output,
    metric := evaluation_attempt.metric, evaluation_result := result }

/-- evaluator.py lines 38-86, Evaluator.evaluate: the worker pool returns one
evaluated attempt per pair, positionally. -/
def evaluate (measure : MeasureCap)
    (evaluation_attempts : List EvaluationAttempt) :
    List EvaluationAttemptEvaluated :=
  evaluation_attempts.map (evaluate_single_attempt measure)

end Evaluator

/-- C9: unfolding produces exactly one evaluation attempt per (executed
attempt, metric) pair — for a single executed attempt the pair metrics are
exactly its metric list in order, fields are preserved, and unfolding
distributes over concatenation — and evaluation returns exactly one evaluated
attempt per pair, where position i depends only on pair i: an exception from
measure becomes a score 0.0 ERROR result carrying the message, a normal return
is used as is, and neither affects any other pair. -/
theorem evaluator_cross_product_and_isolation :
    (∀ executed : List TestAttemptExecuted,
      (Evaluator.unfold_test_attempts executed).length
        = (executed.map (fun ta => ta.metrics.length)).sum) ∧
    (∀ ta : TestAttemptExecuted,
      (Evaluator.unfold_test_attempts [ta]).map (fun pa => pa.metric) = ta.metrics ∧
      ∀ pa ∈ Evaluator.unfold_test_attempts [ta],
        pa.name = ta.name ∧ pa.tags = ta.tags ∧ pa.retry_params = ta.retry_params ∧
        pa.input = ta.input ∧ pa.expected_output = ta.expected_output ∧
        pa.metrics = ta.metrics ∧ pa.number = ta.number ∧
        pa.actual_output = ta.actual_output) ∧
    (∀ xs ys : List TestAttemptExecuted,
      Evaluator.unfold_test_attempts (xs ++ ys)
        = Evaluator.unfold_test_attempts xs ++ Evaluator.unfold_test_attempts ys) ∧
    (∀ (measure : MeasureCap) (pairs : List EvaluationAttempt),
      (Evaluator.evaluate measure pairs).length = pairs.length) ∧
    (∀ (measure : MeasureCap) (pairs : List EvaluationAttempt) (i : Nat)
        (pa : EvaluationAttempt),
      pairs[i]? = some pa →
      ∃ ev : EvaluationAttemptEvaluated,
        (Evaluator.evaluate measure pairs)[i]? = some ev ∧
        ev.name = pa.name ∧ ev.number = pa.number ∧ ev.metric = pa.metric ∧
        (∀ e, measure pa.metric pa.input pa.expected_output pa.actual_output
            = Except.error e →
          ev.evaluation_result = ⟨0, EvaluationVerdict.ERROR, e⟩) ∧
        (∀ r, measure pa.metric pa.input pa.expected_output pa.actual_output
            = Except.ok r →
          ev.evaluation_result = r)) := by
  refine ⟨?_, ?_, ?_, ?_, ?_⟩
  · intro executed
    rw [Evaluator.unfold_test_attempts, List.length_flatMap]
    congr 1
    apply List.map_congr_left
    intro ta _
    simp
  · intro ta
    have h0 : Evaluator.unfold_test_attempts [ta]
        = ta.metrics.map fun metric =>
            { name := ta.name, tags := ta.tags, retry_params := ta.retry_params,
              input := ta.input, expected_output := ta.expected_output,
              metrics := ta.metrics, number := ta.number,
              actual_output := ta.actual_output, metric := metric } := by
      simp [Evaluator.unfold_test_attempts]
    constructor
    · rw [h0, List.map_map]
      have : ∀ m ∈ ta.metrics,
          ((fun pa => EvaluationAttempt.metric pa) ∘ fun metric =>
            ({ name := ta.name, tags := ta.tags, retry_params := ta.retry_params,
               input := ta.input, expected_output := ta.expected_output,
               metrics := ta.metrics, number := ta.number,
               actual_output := ta.actual_output, metric := metric }
              : EvaluationAttempt)) m = id m := by
        intro m _; rfl
      rw [List.map_congr_left this, List.map_id]
    · intro pa hpa
      rw [h0] at hpa
      simp only [List.mem_map] at hpa
      obtain ⟨m, _, rfl⟩ := hpa
      exact ⟨rfl, rfl, rfl, rfl, rfl, rfl, rfl, rfl⟩
  · intro xs ys
    exact List.flatMap_append xs ys _
  · intro measure pairs
    exact List.length_map pairs _
  · intro measure pairs i pa hp
    refine ⟨Evaluator.evaluate_single_attempt measure pa, ?_, rfl, rfl, rfl, ?_, ?_⟩
    · rw [Evaluator.evaluate, List.getElem?_map, hp]
      rfl
    · intro e he
      simp [Evaluator.evaluate_single_attempt, he]
    · intro r hr
      simp [Evaluator.evaluate_single_attempt, hr]

/-- A first concrete metric for the C9 witness. -/
def metricOne : Metric := ⟨"m1"⟩

/-- A second concrete metric for the C9 witness. -/
def metricTwo : Metric := ⟨"m2"⟩

/-- An executed attempt carrying two metrics. -/
def sampleExecuted : TestAttemptExecuted :=
  { name := "case", tags := [], retry_params := ⟨1, some RetryAggregationStrategy.MEAN⟩,
    input := {}, expected_output := {}, metrics := [metricOne, metricTwo], number := 0,
    actual_output := {} }

/-- A measure capability that raises on metric m1 and succeeds on any other. -/
def measureCap : MeasureCap := fun m _ _ _ =>
  if m.get_name = "m1" then Except.error "boom"
  else Except.ok ⟨1, EvaluationVerdict.PASSED, "ok"⟩

/-- Witness for C9: one executed attempt with two metrics unfolds into two
pairs; the first metric's exception becomes a score 0.0 ERROR result while the
second pair still gets its normal PASSED result. -/
theorem evaluator_cross_product_and_isolation_witness :
    (Evaluator.unfold_test_attempts [sampleExecuted]).length = 2 ∧
    (∃ ev : EvaluationAttemptEvaluated,
      (Evaluator.evaluate measureCap (Evaluator.unfold_test_attempts [sampleExecuted]))[0]?
          = some ev ∧
      ev.evaluation_result = ⟨0, EvaluationVerdict.ERROR, "boom"⟩) ∧
    (∃ ev2 : EvaluationAttemptEvaluated,
      (Evaluator.evaluate measureCap (Evaluator.unfold_test_attempts [sampleExecuted]))[1]?
          = some ev2 ∧
      ev2.evaluation_result = ⟨1, EvaluationVerdict.PASSED, "ok"⟩) := by
  refine ⟨(evaluator_cross_product_and_isolation.1 [sampleExecuted]).trans (by decide),
    ?_, ?_⟩
  · obtain ⟨ev, hev, _, _, _, herr, _⟩ :=
      evaluator_cross_product_and_isolation.2.2.2.2 measureCap
        (Evaluator.unfold_test_attempts [sampleExecuted]) 0
        { name := sampleExecuted.name, tags := sampleExecuted.tags,
          retry_params := sampleExecuted.retry_params, input := sampleExecuted.input,
          expected_output := sampleExecuted.expected_output,
          metrics := sampleExecuted.metrics, number := sampleExecuted.number,
          actual_output := sampleExecuted.actual_output, metric := metricOne }
        rfl
    exact ⟨ev, hev, herr "boom" rfl⟩
  · obtain ⟨ev2, hev2, _, _, _, _, hok⟩ :=
      evaluator_cross_product_and_isolation.2.2.2.2 measureCap
        (Evaluator.unfold_test_attempts [sampleExecuted]) 1
        { name := sampleExecuted.name, tags := sampleExecuted.tags,
          retry_params := sampleExecuted.retry_params, input := sampleExecuted.input,
          expected_output := sampleExecuted.expected_output,
          metrics := sampleExecuted.metrics, number := sampleExecuted.number,
          actual_output := sampleExecuted.actual_output, metric := metricTwo }
        rfl
    exact ⟨ev2, hev2, hok ⟨1, EvaluationVerdict.PASSED, "ok"⟩ rfl⟩

end Rebel
